import Mathlib

/-!
Shallow embedding of the audio-transcription core of the repository:
  * `src/lib/audio/groq.ts`      — segment/transcript types, `combineTranscriptions`
  * `src/lib/audio/processor.ts` — `processAudioFile` (chunking)
  * `src/unnamed/part_000`       — `processTranscription` (submission orchestrator)

JavaScript numbers are modelled as rationals (ℚ), byte buffers as `List ℕ`,
thrown exceptions as `Except String`.  External effects (the Groq provider
call, the database save) are modelled by passing in the per-chunk outcomes and
by returning the record that would be saved.
-/

namespace Transcr

/-- Type `TranscriptionSegment` from `src/lib/audio/groq.ts` (lines 9-19). -/
structure TranscriptionSegment where
  id : ℤ
  start : ℚ
  «end» : ℚ
  text : String
  tokens : List ℤ
  temperature : ℚ
  avg_logprob : ℚ
  compression_ratio : ℚ
  no_speech_prob : ℚ
  deriving DecidableEq, Repr

/-- Type `TranscriptionResponse` from `src/lib/audio/groq.ts` (lines 21-25). -/
structure TranscriptionResponse where
  text : String
  segments : List TranscriptionSegment
  language : String
  deriving DecidableEq, Repr

/-- The mutable loop state of `combineTranscriptions`
(`combinedText`, `combinedSegments`, `timeOffset`, groq.ts lines 65-67). -/
structure CombineState where
  combinedText : String
  combinedSegments : List TranscriptionSegment
  timeOffset : ℚ
  deriving DecidableEq, Repr

/-- The segment adjustment `{...segment, start: segment.start + timeOffset,
end: segment.end + timeOffset}` (groq.ts lines 77-81): only `start` and `end`
change, every other field is spread through unchanged. -/
def rebaseSegment (off : ℚ) (s : TranscriptionSegment) : TranscriptionSegment :=
  { s with start := s.start + off, «end» := s.«end» + off }

/-- The `timeOffset` update of the loop (groq.ts lines 86-88): if the chunk has
segments, the offset becomes the end of its last original segment; otherwise it
is left unchanged. -/
def stepOffset (off : ℚ) (t : TranscriptionResponse) : ℚ :=
  match t.segments.getLast? with
  | some s => s.«end»
  | none => off

/-- One iteration of the `transcriptions.forEach((transcription, index) => ...)`
loop of `combineTranscriptions` (groq.ts lines 69-89). -/
def combineStep (st : CombineState) (p : ℕ × TranscriptionResponse) : CombineState :=
  { combinedText :=
      (if p.1 > 0 then st.combinedText ++ " " else st.combinedText) ++ p.2.text,
    combinedSegments := st.combinedSegments ++ p.2.segments.map (rebaseSegment st.timeOffset),
    timeOffset := stepOffset st.timeOffset p.2 }

/-- Initial loop state of `combineTranscriptions` (groq.ts lines 65-67). -/
def combineInit : CombineState :=
  { combinedText := "", combinedSegments := [], timeOffset := 0 }

/-- JavaScript `String.prototype.trim`: strip whitespace from both ends. -/
def jsTrim (s : String) : String :=
  ⟨((s.data.dropWhile Char.isWhitespace).reverse.dropWhile Char.isWhitespace).reverse⟩

/-- The multi-chunk body of `combineTranscriptions` (groq.ts lines 65-95):
run the loop, then build the result with the accumulated text trimmed and the
language taken from the first transcription. -/
def combineAll (ts : List TranscriptionResponse) : TranscriptionResponse :=
  let st := ts.enum.foldl combineStep combineInit
  { text := jsTrim st.combinedText,
    segments := st.combinedSegments,
    language := ((ts.head?).map (fun t => t.language)).getD "" }

/-- Function `combineTranscriptions` from `src/lib/audio/groq.ts` (lines 54-96):
empty input throws, a single transcription is returned unchanged, otherwise the
fold above runs. -/
def combineTranscriptions : List TranscriptionResponse → Except String TranscriptionResponse
  | [] => Except.error "No transcriptions to combine"
  | [t] => Except.ok t
  | t₁ :: t₂ :: ts => Except.ok (combineAll (t₁ :: t₂ :: ts))

/-! ### `src/lib/audio/processor.ts` -/

/-- Constant `MAX_FILE_SIZE = 500 * 1024 * 1024` (processor.ts line 16). -/
def MAX_FILE_SIZE : ℕ := 500 * 1024 * 1024

/-- Constant `MAX_CHUNK_SIZE = 20 * 1024 * 1024` (processor.ts line 17). -/
def MAX_CHUNK_SIZE : ℕ := 20 * 1024 * 1024

/-- Constant `GROQ_SIZE_LIMIT = 25 * 1024 * 1024` (processor.ts line 18). -/
def GROQ_SIZE_LIMIT : ℕ := 25 * 1024 * 1024

/-- An input `File`: declared name, declared MIME type, raw bytes.
`file.size` is `data.length`. -/
structure AudioFile where
  name : String
  type : String
  data : List ℕ
  deriving DecidableEq, Repr

/-- Type `ProcessedAudio` from processor.ts (lines 9-14); chunks are byte lists. -/
structure ProcessedAudio where
  chunks : List (List ℕ)
  fileName : String
  fileType : String
  totalSize : ℕ
  deriving DecidableEq, Repr

/-- The `while (offset < buffer.byteLength)` loop of `processAudioFile`
(processor.ts lines 41-46): repeatedly slice off
`min(MAX_CHUNK_SIZE, remaining)` bytes. -/
def splitIntoChunks (l : List ℕ) : List (List ℕ) :=
  if h : l = [] then []
  else l.take MAX_CHUNK_SIZE :: splitIntoChunks (l.drop MAX_CHUNK_SIZE)
termination_by l.length
decreasing_by
  simp only [List.length_drop]
  exact Nat.sub_lt (List.length_pos.mpr h) (by norm_num [MAX_CHUNK_SIZE])

/-- Function `processAudioFile` from `src/lib/audio/processor.ts` (lines 20-54):
reject above 500 MiB, return one chunk at or below the 25 MiB Groq limit,
otherwise split into at-most-20 MiB pieces. -/
def processAudioFile (file : AudioFile) : Except String ProcessedAudio :=
  if file.data.length > MAX_FILE_SIZE then
    Except.error "File size exceeds maximum limit of 500MB"
  else if file.data.length ≤ GROQ_SIZE_LIMIT then
    Except.ok { chunks := [file.data], fileName := file.name,
                fileType := file.type, totalSize := file.data.length }
  else
    Except.ok { chunks := splitIntoChunks file.data, fileName := file.name,
                fileType := file.type, totalSize := file.data.length }

/-! ### `src/unnamed/part_000` — the submission orchestrator -/

/-- JavaScript `Math.round` on a rational: round to nearest, ties up (JavaScript
semantics, `Math.round(x) = floor(x + 0.5)`). -/
def jsRound (q : ℚ) : ℤ := ⌊q + 1/2⌋

/-- JavaScript `Number(x.toFixed(3))`: round to the nearest thousandth. -/
def roundTo3 (q : ℚ) : ℚ := (⌊q * 1000 + 1/2⌋ : ℚ) / 1000

/-- The per-segment rounding applied when building `transcriptionData`
(part_000 lines 104-108). -/
def roundSegment (s : TranscriptionSegment) : TranscriptionSegment :=
  { s with start := roundTo3 s.start, «end» := roundTo3 s.«end» }

/-- JavaScript `Math.max(...)` seeded by the first element; the caller guards against the
empty list (part_000 lines 94-96). -/
def listMaxQ : List ℚ → ℚ
  | [] => 0
  | x :: xs => xs.foldl max x

/-- The `transcriptionResults` list built by the chunk loop (part_000 lines
70-83): successful outcomes, in order. -/
def successes (outcomes : List (Except String TranscriptionResponse)) :
    List TranscriptionResponse :=
  outcomes.filterMap (fun o => o.toOption)

/-- The error message pushed for a failed chunk at 0-based index `i`
(part_000 line 81). -/
def chunkErrorMsg (i : ℕ) (e : String) : String :=
  "Failed to transcribe segment " ++ toString (i + 1) ++ ": " ++ e

/-- The `errors` list built by the chunk loop (part_000 lines 70-83): one
tagged message per failed chunk, in order. -/
def chunkErrors (outcomes : List (Except String TranscriptionResponse)) :
    List String :=
  outcomes.enum.filterMap (fun p =>
    match p.2 with
    | Except.error e => some (chunkErrorMsg p.1 e)
    | Except.ok _ => none)

/-- The `transcriptionData` record handed to `saveTranscription`
(part_000 lines 99-115). -/
structure TranscriptionData where
  teamId : ℕ
  userId : ℕ
  fileName : String
  originalText : String
  segments : List TranscriptionSegment
  duration : ℤ
  language : String
  fileType : String
  fileSize : ℕ
  status : String
  errorLog : Option String
  deriving DecidableEq, Repr

/-- Type `TranscriptionActionResponse` (part_000 lines 41-46); the `transcription`
field carries the saved record. -/
structure TranscriptionActionResponse where
  error : Option String
  success : Option String
  transcription : Option TranscriptionData
  deriving DecidableEq, Repr

/-- The `transcriptionData` built at part_000 lines 93-115: duration is the
maximum original segment end (or 0 without segments) rounded with
`Math.round`; segment times are rounded to 3 decimals; status and error log
depend on whether any chunk failed. -/
def mkTranscriptionData (fileName fileType : String) (fileSize teamId userId : ℕ)
    (errors : List String) (combined : TranscriptionResponse) : TranscriptionData :=
  let duration : ℚ :=
    if combined.segments.length > 0 then
      listMaxQ (combined.segments.map (fun s => s.«end»))
    else 0
  { teamId := teamId, userId := userId, fileName := fileName,
    originalText := combined.text,
    segments := combined.segments.map roundSegment,
    duration := jsRound duration,
    language := combined.language, fileType := fileType,
    fileSize := fileSize,
    status := if errors.length > 0 then "partial" else "complete",
    errorLog := if errors.length > 0 then some ("\n".intercalate errors) else none }

/-- Function `processTranscription` from `src/unnamed/part_000` (lines 49-138), after
chunking: the per-chunk provider outcomes are passed in (the loop body either
pushes a result or a tagged error), the save is modelled by returning the
record that is persisted (`none` when the save call is never reached).  A
thrown `NoTranscriptsAvailable` ("Failed to transcribe any part of the audio
file") is caught by the surrounding try/catch and returned as `error`. -/
def processTranscriptionCore (fileName fileType : String) (fileSize teamId userId : ℕ)
    (outcomes : List (Except String TranscriptionResponse)) :
    TranscriptionActionResponse × Option TranscriptionData :=
  let results := successes outcomes
  let errors := chunkErrors outcomes
  if results = [] then
    ({ error := some "Failed to transcribe any part of the audio file",
       success := none, transcription := none }, none)
  else
    match combineTranscriptions results with
    | Except.error e =>
        ({ error := some e, success := none, transcription := none }, none)
    | Except.ok combined =>
        let data := mkTranscriptionData fileName fileType fileSize teamId userId
          errors combined
        ({ error := if errors.length > 0 then some ("\n".intercalate errors) else none,
           success := some (if errors.length > 0 then
             "Transcription completed with some errors"
           else "Transcription completed successfully"),
           transcription := some data }, some data)

/-- Specification-level view of the merged segment list: each chunk's segments
rebased by the running offset, concatenated in input order. -/
def rebaseAll : ℚ → List TranscriptionResponse → List TranscriptionSegment
  | _, [] => []
  | off, t :: ts => t.segments.map (rebaseSegment off) ++ rebaseAll (stepOffset off t) ts

/-- The running offset of the merge after the first `n` chunks. -/
def offsetAfter (ts : List TranscriptionResponse) (n : ℕ) : ℚ :=
  (ts.take n).foldl stepOffset 0

/-! ### Concrete inputs used to test the claims -/

/-- Chunk transcript A: last (only) segment ends at 10.0, but its text carries
a leading space, as Whisper-style providers commonly emit. -/
def cexA : TranscriptionResponse :=
  { text := " a",
    segments := [{ id := 0, start := 0, «end» := 10, text := " a", tokens := [],
                   temperature := 0, avg_logprob := 0, compression_ratio := 0,
                   no_speech_prob := 0 }],
    language := "en" }

/-- Chunk transcript B: one segment `[0.0, 2.0]`. -/
def cexB : TranscriptionResponse :=
  { text := "b",
    segments := [{ id := 0, start := 0, «end» := 2, text := "b", tokens := [],
                   temperature := 0, avg_logprob := 0, compression_ratio := 0,
                   no_speech_prob := 0 }],
    language := "en" }

/-- A payload of 20 MiB + 1 byte: accepted, above the soft target, at or below
the provider ceiling. -/
def cexFile3 : AudioFile :=
  { name := "mid.mp3", type := "audio/mpeg",
    data := List.replicate (20 * 1024 * 1024 + 1) 0 }

/-- What `processAudioFile` returns for `cexFile3`: one single chunk holding
the whole 20 MiB + 1 payload. -/
def cexProcessed3 : ProcessedAudio :=
  { chunks := [cexFile3.data], fileName := "mid.mp3", fileType := "audio/mpeg",
    totalSize := 20 * 1024 * 1024 + 1 }

/-! ### Witness inputs -/

/-- A 3-byte payload (small-path witness input). -/
def witFileSmall : AudioFile :=
  { name := "a.mp3", type := "audio/mpeg", data := [1, 2, 3] }

/-- A 1-byte payload (amended-C3 witness input). -/
def witFileTiny : AudioFile :=
  { name := "a.mp3", type := "audio/wav", data := [7] }

/-- A payload of 25 MiB + 1 bytes (multi-chunk witness input). -/
def witFileBig : AudioFile :=
  { name := "big.mp3", type := "audio/mpeg",
    data := List.replicate (25 * 1024 * 1024 + 1) 0 }

/-- A payload of 500 MiB + 1 bytes (oversized witness input). -/
def witFileHuge : AudioFile :=
  { name := "huge.mp3", type := "audio/mpeg",
    data := List.replicate (500 * 1024 * 1024 + 1) 0 }

/-- A segment `[0.0, 10.0]` (witness input). -/
def witSegA : TranscriptionSegment :=
  { id := 0, start := 0, «end» := 10, text := "hello", tokens := [1],
    temperature := 0, avg_logprob := -1, compression_ratio := 1,
    no_speech_prob := 0 }

/-- A segment `[0.0, 2.0]` (witness input). -/
def witSegB : TranscriptionSegment :=
  { id := 0, start := 0, «end» := 2, text := "world", tokens := [2],
    temperature := 0, avg_logprob := -1, compression_ratio := 1,
    no_speech_prob := 0 }

/-- A chunk transcript whose last segment ends at 10.0 (witness input). -/
def witA : TranscriptionResponse :=
  { text := "hello", segments := [witSegA], language := "en" }

/-- A chunk transcript with one segment `[0.0, 2.0]` (witness input). -/
def witB : TranscriptionResponse :=
  { text := "world", segments := [witSegB], language := "en" }

/-- A chunk transcript with no segments (witness input). -/
def witEmpty : TranscriptionResponse :=
  { text := "noise", segments := [], language := "en" }

/-! ### Lemmas about the chunker -/

lemma splitIntoChunks_flatten (l : List ℕ) : (splitIntoChunks l).flatten = l := by
  induction l using splitIntoChunks.induct with
  | case1 => simp [splitIntoChunks]
  | case2 l hl ih =>
      rw [splitIntoChunks]
      simp only [hl, dif_neg, not_false_iff, List.flatten_cons, ih,
        List.take_append_drop]

lemma splitIntoChunks_size_le (l : List ℕ) :
    ∀ c ∈ splitIntoChunks l, c.length ≤ MAX_CHUNK_SIZE := by
  induction l using splitIntoChunks.induct with
  | case1 => simp [splitIntoChunks]
  | case2 l hl ih =>
      rw [splitIntoChunks]
      simp only [hl, dif_neg, not_false_iff, List.mem_cons]
      rintro c (rfl | hc)
      · simpa using List.length_take_le MAX_CHUNK_SIZE l
      · exact ih c hc

lemma processAudioFile_small (file : AudioFile)
    (h : file.data.length ≤ GROQ_SIZE_LIMIT) :
    processAudioFile file = Except.ok
      { chunks := [file.data], fileName := file.name,
        fileType := file.type, totalSize := file.data.length } := by
  have hmax : ¬ file.data.length > MAX_FILE_SIZE := by
    simp only [not_lt]
    calc file.data.length ≤ GROQ_SIZE_LIMIT := h
    _ ≤ MAX_FILE_SIZE := by norm_num [GROQ_SIZE_LIMIT, MAX_FILE_SIZE]
  simp [processAudioFile, hmax, h]

lemma processAudioFile_large (file : AudioFile)
    (h1 : GROQ_SIZE_LIMIT < file.data.length)
    (h2 : file.data.length ≤ MAX_FILE_SIZE) :
    processAudioFile file = Except.ok
      { chunks := splitIntoChunks file.data, fileName := file.name,
        fileType := file.type, totalSize := file.data.length } := by
  have hmax : ¬ file.data.length > MAX_FILE_SIZE := not_lt.mpr h2
  have hg : ¬ file.data.length ≤ GROQ_SIZE_LIMIT := not_le.mpr h1
  simp [processAudioFile, hmax, hg]

/-! ### Lemmas about the merger -/

lemma rebaseSegment_zero (s : TranscriptionSegment) : rebaseSegment 0 s = s := by
  simp [rebaseSegment]

lemma stepOffset_nil (off : ℚ) (t : TranscriptionResponse)
    (h : t.segments = []) : stepOffset off t = off := by
  simp [stepOffset, h]

lemma foldl_combineStep_segments (ts : List TranscriptionResponse) :
    ∀ (k : ℕ) (st : CombineState),
      ((List.enumFrom k ts).foldl combineStep st).combinedSegments
        = st.combinedSegments ++ rebaseAll st.timeOffset ts := by
  induction ts with
  | nil => intro k st; simp [rebaseAll]
  | cons t ts ih =>
      intro k st
      rw [List.enumFrom_cons, List.foldl_cons, ih]
      simp [combineStep, rebaseAll, List.append_assoc]

lemma foldl_combineStep_offset (ts : List TranscriptionResponse) :
    ∀ (k : ℕ) (st : CombineState),
      ((List.enumFrom k ts).foldl combineStep st).timeOffset
        = ts.foldl stepOffset st.timeOffset := by
  induction ts with
  | nil => intro k st; rfl
  | cons t ts ih =>
      intro k st
      rw [List.enumFrom_cons, List.foldl_cons, ih, List.foldl_cons]
      rfl

lemma rebaseAll_length (off : ℚ) (ts : List TranscriptionResponse) :
    (rebaseAll off ts).length = (ts.map (fun t => t.segments.length)).sum := by
  induction ts generalizing off with
  | nil => rfl
  | cons t ts ih => simp [rebaseAll, ih]

lemma combineAll_segments (ts : List TranscriptionResponse) :
    (combineAll ts).segments = rebaseAll 0 ts := by
  have h := foldl_combineStep_segments ts 0 combineInit
  simp only [combineAll, List.enum]
  rw [h]
  rfl

lemma combineTranscriptions_cons (t : TranscriptionResponse)
    (rest : List TranscriptionResponse) :
    ∃ r, combineTranscriptions (t :: rest) = Except.ok r := by
  cases rest with
  | nil => exact ⟨t, rfl⟩
  | cons t₂ ts => exact ⟨combineAll (t :: t₂ :: ts), rfl⟩

lemma intercalate_singleton (s x : String) : s.intercalate [x] = x := rfl

lemma processTranscriptionCore_ok (fn ft : String) (fs tid uid : ℕ)
    (outcomes : List (Except String TranscriptionResponse))
    (t : TranscriptionResponse) (rest : List TranscriptionResponse)
    (hcons : successes outcomes = t :: rest)
    (r : TranscriptionResponse)
    (hr : combineTranscriptions (t :: rest) = Except.ok r) :
    processTranscriptionCore fn ft fs tid uid outcomes
      = ({ error := if (chunkErrors outcomes).length > 0 then
             some ("\n".intercalate (chunkErrors outcomes)) else none,
           success := some (if (chunkErrors outcomes).length > 0 then
             "Transcription completed with some errors"
           else "Transcription completed successfully"),
           transcription := some (mkTranscriptionData fn ft fs tid uid
             (chunkErrors outcomes) r) },
         some (mkTranscriptionData fn ft fs tid uid (chunkErrors outcomes) r)) := by
  simp only [processTranscriptionCore]
  rw [hcons, if_neg (by simp), hr]

/-! ### The claims -/

/-- C4: for every payload of size at most 25 MiB, chunking yields exactly one
chunk that equals the whole payload. -/
theorem claim_C4 (file : AudioFile) (h : file.data.length ≤ GROQ_SIZE_LIMIT) :
    processAudioFile file = Except.ok
      { chunks := [file.data], fileName := file.name,
        fileType := file.type, totalSize := file.data.length } :=
  processAudioFile_small file h

theorem claim_C4_witness :
    witFileSmall.data.length ≤ GROQ_SIZE_LIMIT
    ∧ processAudioFile witFileSmall
        = Except.ok { chunks := [[1, 2, 3]], fileName := "a.mp3",
                      fileType := "audio/mpeg", totalSize := 3 } :=
  ⟨by norm_num [witFileSmall, GROQ_SIZE_LIMIT],
   claim_C4 witFileSmall (by norm_num [witFileSmall, GROQ_SIZE_LIMIT])⟩

/-- C9: every payload larger than 500 MiB is rejected with the
`PayloadTooLarge` error ("File size exceeds maximum limit of 500MB"); the
size check is the first thing `processAudioFile` does, so no chunk is ever
produced. -/
theorem claim_C9 (file : AudioFile) (h : MAX_FILE_SIZE < file.data.length) :
    processAudioFile file = Except.error "File size exceeds maximum limit of 500MB" := by
  simp [processAudioFile, h]

theorem claim_C9_witness :
    MAX_FILE_SIZE < witFileHuge.data.length
    ∧ processAudioFile witFileHuge
        = Except.error "File size exceeds maximum limit of 500MB" := by
  have h : MAX_FILE_SIZE < witFileHuge.data.length := by
    rw [show witFileHuge.data.length = 500 * 1024 * 1024 + 1 from
      List.length_replicate _ _]
    norm_num [MAX_FILE_SIZE]
  exact ⟨h, claim_C9 witFileHuge h⟩

/-- C2: for every payload larger than 25 MiB and at most 500 MiB, chunking
produces chunks each of size at most 20 MiB, and concatenating all chunks in
order reproduces the original payload byte-for-byte (no gaps, overlaps, or
reordering). -/
theorem claim_C2 (file : AudioFile)
    (h1 : GROQ_SIZE_LIMIT < file.data.length)
    (h2 : file.data.length ≤ MAX_FILE_SIZE) :
    ∃ p, processAudioFile file = Except.ok p
      ∧ (∀ c ∈ p.chunks, c.length ≤ MAX_CHUNK_SIZE)
      ∧ p.chunks.flatten = file.data :=
  ⟨_, processAudioFile_large file h1 h2,
   splitIntoChunks_size_le file.data, splitIntoChunks_flatten file.data⟩

theorem claim_C2_witness :
    GROQ_SIZE_LIMIT < witFileBig.data.length
    ∧ witFileBig.data.length ≤ MAX_FILE_SIZE
    ∧ ∃ p, processAudioFile witFileBig = Except.ok p
      ∧ (∀ c ∈ p.chunks, c.length ≤ MAX_CHUNK_SIZE)
      ∧ p.chunks.flatten = witFileBig.data := by
  have hlen : witFileBig.data.length = 25 * 1024 * 1024 + 1 :=
    List.length_replicate _ _
  have h1 : GROQ_SIZE_LIMIT < witFileBig.data.length := by
    rw [hlen]; norm_num [GROQ_SIZE_LIMIT]
  have h2 : witFileBig.data.length ≤ MAX_FILE_SIZE := by
    rw [hlen]; norm_num [MAX_FILE_SIZE]
  exact ⟨h1, h2, claim_C2 witFileBig h1 h2⟩

/-- C3 counterexample: the claim "every chunk of every accepted payload is at
most the 20 MiB soft target" is false.  A payload of 20 MiB + 1 bytes is
accepted (it is below the 500 MiB maximum), takes the single-chunk path (it is
at or below the 25 MiB provider ceiling), and the single chunk it yields is
the whole payload — 20 MiB + 1 bytes, larger than the soft target. -/
theorem claim_C3_counterexample :
    processAudioFile cexFile3 = Except.ok cexProcessed3
    ∧ cexFile3.data.length ≤ MAX_FILE_SIZE
    ∧ cexProcessed3.chunks = [cexFile3.data]
    ∧ ∃ c ∈ cexProcessed3.chunks, MAX_CHUNK_SIZE < c.length := by
  have hlen : cexFile3.data.length = 20 * 1024 * 1024 + 1 :=
    List.length_replicate _ _
  have hg : cexFile3.data.length ≤ GROQ_SIZE_LIMIT := by
    rw [hlen]; norm_num [GROQ_SIZE_LIMIT]
  refine ⟨?_, ?_, rfl, cexFile3.data, List.mem_singleton_self _, ?_⟩
  · have h := processAudioFile_small cexFile3 hg
    rw [hlen] at h
    exact h
  · rw [hlen]; norm_num [MAX_FILE_SIZE]
  · rw [hlen]; norm_num [MAX_CHUNK_SIZE]

/-- C3 (amended): for every accepted payload (size at most 500 MiB), every
chunk produced by the chunker has byte size at most the 25 MiB provider
ceiling, and the chunk ranges are contiguous and partition the payload with no
gaps or overlaps; the 20 MiB soft-target bound additionally holds whenever the
payload itself exceeds 25 MiB (a payload between 20 MiB and 25 MiB is returned
whole as one chunk larger than the soft target). -/
theorem claim_C3_amended (file : AudioFile) (h : file.data.length ≤ MAX_FILE_SIZE) :
    ∃ p, processAudioFile file = Except.ok p
      ∧ (∀ c ∈ p.chunks, c.length ≤ GROQ_SIZE_LIMIT)
      ∧ (GROQ_SIZE_LIMIT < file.data.length →
          ∀ c ∈ p.chunks, c.length ≤ MAX_CHUNK_SIZE)
      ∧ p.chunks.flatten = file.data := by
  by_cases hg : file.data.length ≤ GROQ_SIZE_LIMIT
  · refine ⟨_, processAudioFile_small file hg, ?_, ?_, ?_⟩
    · intro c hc
      rw [List.mem_singleton] at hc
      rw [hc]
      exact hg
    · intro hlt
      exact absurd hlt (not_lt.mpr hg)
    · simp
  · push_neg at hg
    refine ⟨_, processAudioFile_large file hg h, ?_, ?_,
      splitIntoChunks_flatten file.data⟩
    · intro c hc
      exact le_trans (splitIntoChunks_size_le file.data c hc)
        (by norm_num [MAX_CHUNK_SIZE, GROQ_SIZE_LIMIT])
    · intro _
      exact splitIntoChunks_size_le file.data

/-- C1 counterexample: the claim "the combined text equals A's text, a single
space, then B's text" is false when A's text carries leading whitespace,
because `combineTranscriptions` trims the accumulated text
(`combinedText.trim()`, groq.ts line 92).  `cexA` ends its last segment at
10.0 and `cexB` has the segment `[0.0, 2.0]`, so the inputs satisfy the
claim's premises, yet the combined text is `"a b"` while
`A.text + " " + B.text` is `" a b"`. -/
theorem claim_C1_counterexample :
    ((combineTranscriptions [cexA, cexB]).map (fun r => r.text)) = Except.ok "a b"
    ∧ cexA.text ++ " " ++ cexB.text = " a b"
    ∧ (" a b" : String) ≠ "a b"
    ∧ (cexA.segments.map (fun s => s.«end»)) = [10]
    ∧ (cexB.segments.map (fun s => (s.start, s.«end»))) = [(0, 2)] :=
  ⟨rfl, rfl, by decide, rfl, rfl⟩

/-- C1 (amended): merging `[A, B]` where A's last segment ends at 10.0 and B
contains a segment `[0.0, 2.0]` yields the combined segment `[10.0, 12.0]` for
that entry, and the combined text equals A's text, a single space, then B's
text, with leading and trailing whitespace trimmed from the result. -/
theorem claim_C1_amended (A B : TranscriptionResponse)
    (hA : A.segments ≠ [])
    (hend : (A.segments.getLast hA).«end» = 10)
    (j : ℕ) (hj : j < B.segments.length)
    (hstart : (B.segments.get ⟨j, hj⟩).start = 0)
    (hstop : (B.segments.get ⟨j, hj⟩).«end» = 2) :
    ∃ r, combineTranscriptions [A, B] = Except.ok r
      ∧ r.text = jsTrim (A.text ++ " " ++ B.text)
      ∧ ∃ hk : A.segments.length + j < r.segments.length,
          (r.segments.get ⟨A.segments.length + j, hk⟩).start = 10
          ∧ (r.segments.get ⟨A.segments.length + j, hk⟩).«end» = 12 := by
  have hoff : stepOffset 0 A = 10 := by
    rw [stepOffset, List.getLast?_eq_getLast A.segments hA]
    exact hend
  have hsegs : (combineAll [A, B]).segments
      = A.segments.map (rebaseSegment 0) ++ B.segments.map (rebaseSegment 10) := by
    rw [combineAll_segments]
    simp [rebaseAll, hoff]
  have hk : A.segments.length + j < (combineAll [A, B]).segments.length := by
    rw [hsegs]
    simp only [List.length_append, List.length_map]
    exact Nat.add_lt_add_left hj _
  refine ⟨combineAll [A, B], rfl, ?_, hk, ?_, ?_⟩
  · show jsTrim ((("" ++ A.text) ++ " ") ++ B.text) = jsTrim ((A.text ++ " ") ++ B.text)
    rw [String.empty_append]
  · rw [List.get_eq_getElem]
    simp only [hsegs]
    rw [List.getElem_append_right (by simp)]
    simp only [List.length_map, Nat.add_sub_cancel_left, List.getElem_map]
    have hstart' : B.segments[j].start = 0 := hstart
    simp [rebaseSegment, hstart']
  · rw [List.get_eq_getElem]
    simp only [hsegs]
    rw [List.getElem_append_right (by simp)]
    simp only [List.length_map, Nat.add_sub_cancel_left, List.getElem_map]
    have hstop' : B.segments[j].«end» = 2 := hstop
    simp [rebaseSegment, hstop']
    norm_num

theorem claim_C1_amended_witness :
    witA.segments ≠ []
    ∧ (witA.segments.getLast (by simp [witA])).«end» = 10
    ∧ 0 < witB.segments.length
    ∧ (witB.segments.get ⟨0, by simp [witB]⟩).start = 0
    ∧ (witB.segments.get ⟨0, by simp [witB]⟩).«end» = 2
    ∧ ∃ r, combineTranscriptions [witA, witB] = Except.ok r
      ∧ r.text = jsTrim (witA.text ++ " " ++ witB.text)
      ∧ ∃ hk : witA.segments.length + 0 < r.segments.length,
          (r.segments.get ⟨witA.segments.length + 0, hk⟩).start = 10
          ∧ (r.segments.get ⟨witA.segments.length + 0, hk⟩).«end» = 12 :=
  ⟨by simp [witA], rfl, by simp [witB], rfl, rfl,
   claim_C1_amended witA witB (by simp [witA]) rfl 0 (by simp [witB]) rfl rfl⟩

/-- C5: a chunk transcript with zero segments leaves the merger's running time
offset unchanged: the offset after the first `i + 1` chunks equals the offset
after the first `i` chunks, and the loop body `combineStep` maps any loop
state to one with the same `timeOffset` when applied to that chunk. -/
theorem claim_C5 (ts : List TranscriptionResponse) (i : ℕ) (hi : i < ts.length)
    (h : (ts.get ⟨i, hi⟩).segments = []) :
    offsetAfter ts (i + 1) = offsetAfter ts i
    ∧ ∀ st : CombineState,
        (combineStep st (i, ts.get ⟨i, hi⟩)).timeOffset = st.timeOffset := by
  constructor
  · unfold offsetAfter
    have h' : (ts[i]).segments = [] := h
    rw [List.take_succ, List.getElem?_eq_getElem hi, Option.toList_some,
      List.foldl_append, List.foldl_cons, List.foldl_nil, stepOffset_nil _ _ h']
  · intro st
    exact stepOffset_nil _ _ h

theorem claim_C5_witness :
    (([witA, witEmpty] : List TranscriptionResponse).get ⟨1, by norm_num⟩).segments = []
    ∧ offsetAfter [witA, witEmpty] 2 = offsetAfter [witA, witEmpty] 1 :=
  ⟨rfl, (claim_C5 [witA, witEmpty] 1 (by norm_num) rfl).1⟩

/-- C10: for every non-empty list of chunk transcripts, the combined segment
list is exactly the concatenation, in input order, of each chunk's segments
rebased by the running offset (`rebaseAll`), with the total segment count
preserved; and rebasing changes only `start` and `end` — `id`, `text`,
`tokens`, `temperature`, `avg_logprob`, `compression_ratio` and
`no_speech_prob` are carried over verbatim (so chunk-local ids may repeat in
the combined output). -/
theorem claim_C10 (ts : List TranscriptionResponse) (h : ts ≠ []) :
    (∃ r, combineTranscriptions ts = Except.ok r
        ∧ r.segments = rebaseAll 0 ts
        ∧ r.segments.length = (ts.map (fun t => t.segments.length)).sum)
    ∧ ∀ (off : ℚ) (s : TranscriptionSegment),
        rebaseSegment off s
          = { id := s.id, start := s.start + off, «end» := s.«end» + off,
              text := s.text, tokens := s.tokens, temperature := s.temperature,
              avg_logprob := s.avg_logprob,
              compression_ratio := s.compression_ratio,
              no_speech_prob := s.no_speech_prob } := by
  constructor
  · match ts, h with
    | [t], _ =>
        refine ⟨t, rfl, ?_, ?_⟩
        · have hz : rebaseSegment (0 : ℚ) = fun s => s := funext rebaseSegment_zero
          simp [rebaseAll, hz]
        · simp
    | t₁ :: t₂ :: rest, _ =>
        refine ⟨combineAll (t₁ :: t₂ :: rest), rfl, combineAll_segments _, ?_⟩
        rw [combineAll_segments, rebaseAll_length]
  · intro off s
    rfl

theorem claim_C10_witness :
    ([witA, witB] : List TranscriptionResponse) ≠ []
    ∧ ∃ r, combineTranscriptions [witA, witB] = Except.ok r
        ∧ r.segments = rebaseAll 0 [witA, witB]
        ∧ r.segments.length
            = (([witA, witB] : List TranscriptionResponse).map
                (fun t => t.segments.length)).sum :=
  ⟨by simp, (claim_C10 [witA, witB] (by simp)).1⟩

theorem claim_C3_amended_witness :
    witFileTiny.data.length ≤ MAX_FILE_SIZE
    ∧ ∃ p, processAudioFile witFileTiny = Except.ok p
      ∧ (∀ c ∈ p.chunks, c.length ≤ GROQ_SIZE_LIMIT)
      ∧ (GROQ_SIZE_LIMIT < witFileTiny.data.length →
          ∀ c ∈ p.chunks, c.length ≤ MAX_CHUNK_SIZE)
      ∧ p.chunks.flatten = witFileTiny.data :=
  ⟨by norm_num [witFileTiny, MAX_FILE_SIZE],
   claim_C3_amended witFileTiny (by norm_num [witFileTiny, MAX_FILE_SIZE])⟩

/-- C6: with 3 chunks of which only chunk 2 (0-based index 1) fails, the
persisted record is built from chunks 1 and 3 merged in that order, its status
is "partial", and its error log is the failure message tagged with the 1-based
index 2 of the failed chunk. -/
theorem claim_C6 (fn ft : String) (fs tid uid : ℕ)
    (A C : TranscriptionResponse) (e : String) :
    ∃ d, (processTranscriptionCore fn ft fs tid uid
            [Except.ok A, Except.error e, Except.ok C]).2 = some d
      ∧ d.status = "partial"
      ∧ d.errorLog = some ("Failed to transcribe segment 2: " ++ e)
      ∧ ∃ r, combineTranscriptions [A, C] = Except.ok r
          ∧ d.originalText = r.text
          ∧ d.segments = r.segments.map roundSegment := by
  refine ⟨_, rfl, rfl, ?_, combineAll [A, C], rfl, rfl, rfl⟩
  show some ("\n".intercalate [chunkErrorMsg 1 e])
      = some ("Failed to transcribe segment 2: " ++ e)
  rw [intercalate_singleton]
  rfl

/-- C7: when every chunk's transcription fails, the submission fails with the
`NoTranscriptsAvailable` error ("Failed to transcribe any part of the audio
file") and nothing is persisted (the second component is `none`); and merging
an empty sequence of chunk transcripts fails with the same taxonomy entry
("No transcriptions to combine"). -/
theorem claim_C7 (fn ft : String) (fs tid uid : ℕ)
    (outcomes : List (Except String TranscriptionResponse))
    (h : ∀ o ∈ outcomes, ∃ e, o = Except.error e) :
    processTranscriptionCore fn ft fs tid uid outcomes
        = ({ error := some "Failed to transcribe any part of the audio file",
             success := none, transcription := none }, none)
    ∧ combineTranscriptions [] = Except.error "No transcriptions to combine" := by
  have hs : successes outcomes = [] := by
    rw [successes, List.filterMap_eq_nil_iff]
    intro o ho
    obtain ⟨e, rfl⟩ := h o ho
    rfl
  refine ⟨?_, rfl⟩
  simp [processTranscriptionCore, hs]

theorem claim_C7_witness :
    (∀ o ∈ ([Except.error "provider down"] :
        List (Except String TranscriptionResponse)), ∃ e, o = Except.error e)
    ∧ processTranscriptionCore "f.mp3" "audio/mpeg" 3 1 2 [Except.error "provider down"]
        = ({ error := some "Failed to transcribe any part of the audio file",
             success := none, transcription := none }, none)
    ∧ combineTranscriptions [] = Except.error "No transcriptions to combine" := by
  have h : ∀ o ∈ ([Except.error "provider down"] :
      List (Except String TranscriptionResponse)), ∃ e, o = Except.error e := by
    intro o ho
    rw [List.mem_singleton] at ho
    exact ⟨"provider down", ho⟩
  exact ⟨h, (claim_C7 "f.mp3" "audio/mpeg" 3 1 2 _ h).1,
    (claim_C7 "f.mp3" "audio/mpeg" 3 1 2 _ h).2⟩

/-- C8: for every submission with at least one successful chunk, the duration
stored in the persisted record is the maximum segment end across the combined
transcript (taken before millisecond rounding), rounded to the nearest whole
second, and it is 0 when the combined transcript has no segments. -/
theorem claim_C8 (fn ft : String) (fs tid uid : ℕ)
    (outcomes : List (Except String TranscriptionResponse))
    (h : successes outcomes ≠ []) :
    ∃ d r, (processTranscriptionCore fn ft fs tid uid outcomes).2 = some d
      ∧ combineTranscriptions (successes outcomes) = Except.ok r
      ∧ d.duration = jsRound (listMaxQ (r.segments.map (fun s => s.«end»)))
      ∧ (r.segments = [] → d.duration = 0) := by
  obtain ⟨t, rest, hcons⟩ : ∃ t rest, successes outcomes = t :: rest := by
    cases hx : successes outcomes with
    | nil => exact absurd hx h
    | cons t rest => exact ⟨t, rest, rfl⟩
  obtain ⟨r, hr⟩ := combineTranscriptions_cons t rest
  have hcore := processTranscriptionCore_ok fn ft fs tid uid outcomes t rest
    hcons r hr
  have hdur : (mkTranscriptionData fn ft fs tid uid (chunkErrors outcomes)
      r).duration = jsRound (listMaxQ (r.segments.map (fun s => s.«end»))) := by
    show jsRound (if r.segments.length > 0 then
        listMaxQ (r.segments.map (fun s => s.«end»)) else 0)
      = jsRound (listMaxQ (r.segments.map (fun s => s.«end»)))
    by_cases hn : r.segments = []
    · rw [hn]
      simp [listMaxQ]
    · rw [if_pos (List.length_pos.mpr hn)]
  refine ⟨_, r, ?_, ?_, hdur, ?_⟩
  · rw [hcore]
  · rw [hcons]
    exact hr
  · intro hnil
    rw [hdur, hnil]
    show jsRound (listMaxQ []) = 0
    rw [show listMaxQ [] = 0 from rfl]
    rw [jsRound, Int.floor_eq_zero_iff]
    constructor
    · norm_num
    · norm_num

theorem claim_C8_witness :
    successes [Except.ok witEmpty] ≠ []
    ∧ ∃ d r, (processTranscriptionCore "f.mp3" "audio/mpeg" 3 1 2
          [Except.ok witEmpty]).2 = some d
      ∧ combineTranscriptions (successes [Except.ok witEmpty]) = Except.ok r
      ∧ d.duration = jsRound (listMaxQ (r.segments.map (fun s => s.«end»)))
      ∧ (r.segments = [] → d.duration = 0) :=
  ⟨by decide, claim_C8 "f.mp3" "audio/mpeg" 3 1 2 _ (by decide)⟩

end Transcr
